/-
Verification of the gkBoot client request/response marshaling layer.

This file gives a shallow embedding of the field-to-HTTP-part mapping engine
of the gkBoot repository (client tag resolution, value conversion, field
assignment, request generation/execution, and the response package) and
proves or refutes the frozen claims about it.

Go runtime values handled by the engine are modelled by the inductive
`RValue`; the Go standard-library string/url/json helpers the engine calls
are modelled by executable Lean functions defined below, each documented
with the stdlib function it models.
-/
import Mathlib

set_option autoImplicit false

/-! ## String helpers modelling the Go standard library -/

/-- Models `strings.Split(s, ",")[0]`: the prefix of `s` before the first
comma, or all of `s` when no comma occurs. -/
def firstSegment (s : String) : String :=
  (s.toList.takeWhile (fun c => c ≠ ',')).asString

/-- Boolean test that `pat` is a prefix of `l` (character lists). -/
def isPrefixOfList : List Char → List Char → Bool
  | [], _ => true
  | _ :: _, [] => false
  | a :: as, b :: bs => a = b && isPrefixOfList as bs

/-- Helper for `containsSubstr`: does `pat` occur as a prefix of some suffix? -/
def containsSubAux (pat : List Char) : List Char → Bool
  | [] => isPrefixOfList pat []
  | c :: rest => isPrefixOfList pat (c :: rest) || containsSubAux pat rest

/-- Models Go `strings.Contains(s, pat)`. -/
def containsSubstr (s pat : String) : Bool :=
  containsSubAux pat.toList s.toList

/-- Models Go `strings.HasSuffix(s, suffix)`. -/
def hasSuffix (s suffix : String) : Bool :=
  List.isSuffixOf suffix.data s.data

/-- Helper for `replaceAll`: non-overlapping left-to-right replacement on
character lists, as performed by Go `strings.Replace(·, ·, ·, -1)`. -/
def replaceAllAux (pat repl : List Char) : List Char → List Char
  | [] => []
  | c :: rest =>
      if isPrefixOfList pat (c :: rest) then
        repl ++ replaceAllAux pat repl (List.drop (pat.length - 1) rest)
      else
        c :: replaceAllAux pat repl rest
termination_by l => l.length
decreasing_by
  · simp only [List.length_cons, List.length_drop]; omega
  · simp only [List.length_cons]; omega

/-- Models Go `strings.Replace(s, pat, repl, -1)` (replace every
non-overlapping occurrence, left to right). -/
def replaceAll (s pat repl : String) : String :=
  (replaceAllAux pat.toList repl.toList s.toList).asString

/-- Models Go `strings.TrimLeft(s, "/")`. -/
def trimLeftSlashes (s : String) : String :=
  (s.toList.dropWhile (fun c => c = '/')).asString

/-- Models Go `strings.TrimRight(s, "/")`. -/
def trimRightSlashes (s : String) : String :=
  (s.toList.reverse.dropWhile (fun c => c = '/')).reverse.asString

/-- Models Go `strconv.ParseBool` with the error discarded (as in
`assignRequest`): the true-spellings yield `true`, everything else
(including parse failures) yields `false`. -/
def parseBoolLenient (s : String) : Bool :=
  ["1", "t", "T", "TRUE", "true", "True"].contains s

/-- UTF-8 encoding of a single character, as a list of byte values. -/
def charUtf8Bytes (c : Char) : List Nat :=
  let n := c.toNat
  if n < 0x80 then [n]
  else if n < 0x800 then [0xC0 + n / 0x40, 0x80 + n % 0x40]
  else if n < 0x10000 then
    [0xE0 + n / 0x1000, 0x80 + (n / 0x40) % 0x40, 0x80 + n % 0x40]
  else
    [0xF0 + n / 0x40000, 0x80 + (n / 0x1000) % 0x40,
     0x80 + (n / 0x40) % 0x40, 0x80 + n % 0x40]

/-- Uppercase hexadecimal digit for `n < 16`. -/
def hexDigitChar (n : Nat) : Char :=
  if n < 10 then Char.ofNat (48 + n) else Char.ofNat (55 + n)

/-- Does Go `url.QueryEscape` leave this byte unescaped? (Alphanumerics and
`-`, `_`, `.`, `~`; space is handled separately.) -/
def isUnreservedQueryByte (b : Nat) : Bool :=
  (65 ≤ b && b ≤ 90) || (97 ≤ b && b ≤ 122) || (48 ≤ b && b ≤ 57) ||
    b = 45 || b = 95 || b = 46 || b = 126

/-- Per-byte step of Go `url.QueryEscape`: space becomes `+`, unreserved
bytes pass through, everything else becomes `%XX`. -/
def escapeQueryByte (b : Nat) : List Char :=
  if b = 32 then ['+']
  else if isUnreservedQueryByte b then [Char.ofNat b]
  else ['%', hexDigitChar (b / 16), hexDigitChar (b % 16)]

/-- Models Go `url.QueryEscape`: percent-encodes every UTF-8 byte of `s`
that is not unreserved, rendering space as `+`. -/
def queryEscape (s : String) : String :=
  (((s.toList.flatMap charUtf8Bytes).flatMap escapeQueryByte)).asString

/-- Models `fmt.Sprintf(format, extras...)` for a `format` that contains no
formatting verbs: the output is the format itself, followed by the
`%!(EXTRA type=value, ...)` diagnostic when operands are left over. The
`extras` are the operands already rendered as `type=value`. -/
def sprintfVerbFree (format : String) (extras : List String) : String :=
  if extras.isEmpty then format
  else format ++ "%!(EXTRA " ++ String.intercalate ", " extras ++ ")"

/-- Go `%v` rendering of a `[]byte`: decimal byte values, space-separated,
in square brackets. -/
def goByteSliceRendering (s : String) : String :=
  "[" ++ String.intercalate " " ((s.toList.flatMap charUtf8Bytes).map toString) ++ "]"

/-! ## Data model: reflected Go values and field metadata -/

/-- Struct-field metadata, as read from a `reflect.StructField` by
`readClientTag`: the declared name, the recognized struct tags (a `none`
models `Tag.Lookup` reporting absence), and the embedded/anonymous marker.
The `swaggestTag` models the structured swaggest schema-tag source: when
present, `readClientTag` short-circuits with its (part, alias, jsonAlias)
triple; its internals live outside this repository's sources. -/
structure FieldMeta where
  name : String
  requestTag : Option String
  aliasTag : Option String
  jsonTag : Option String
  urlEncodeTag : Option String
  swaggestTag : Option (String × String × String)
  anonymous : Bool
deriving Repr, DecidableEq

/-- Reflected Go runtime values, covering the kinds the mapping engine
inspects. `invalid` is the invalid `reflect.Value` (e.g. `Elem()` of a nil
pointer); a nil pointer is `ptr invalid`, so its `Elem()` is `invalid`.
`structV` carries `CanInterface()` and the fields (metadata paired with
value). `chanVal` stands for a kind neither convertible (the converter's
`default` case) nor JSON-marshalable, such as a channel. The floating-point
and complex kinds of the source's switch are not modelled: no claim under
verification depends on them, and their cases are structurally identical to
the integer ones. -/
inductive RValue where
  | invalid
  | str (s : String)
  | intV (i : Int)
  | uintV (n : Nat)
  | boolV (b : Bool)
  | ptr (elem : RValue)
  | slice (elems : List RValue)
  | structV (canInterface : Bool) (fields : List (FieldMeta × RValue))
  | chanVal
deriving Repr

/-- Result of `readClientTag`: the four named results
`(requestPart, alias, jsonAlias, encode)`; the source's `alias` result is
called `aliasName` here because `alias` is reserved in Lean. -/
structure TagInfo where
  requestPart : String
  aliasName : String
  jsonAlias : String
  encode : String
deriving Repr, DecidableEq

/-- Models the mutable `*http.Request` as far as the field writers touch it:
URL path, query parameters, headers (additive), cookies, and body. The URL
is modelled by its path component; `url.Parse` errors are outside the
claims under verification. -/
structure HttpRequest where
  urlPath : String
  query : List (String × String)
  headers : List (String × String)
  cookies : List (String × String)
  body : Option String
deriving Repr, DecidableEq

/-- Models an `*http.Response` as far as the executor reads it: status code
and the fully buffered body (`io.ReadAll` errors are outside the claims
under verification). -/
structure HttpResponse where
  status : Int
  body : String
deriving Repr, DecidableEq

/-! ## The response package -/

/-- Models `response.BasicResponse`: the embedded status-code carrier. -/
structure BasicResponse where
  code : Int := 0
deriving Repr, DecidableEq

/-- Models `response.ErrorResponse`: an error string plus the embedded
`BasicResponse`. -/
structure ErrorResponse where
  errString : String := ""
  basicResponse : BasicResponse := {}
deriving Repr, DecidableEq

/-- Models `ErrorResponse.Failed`: the receiver itself as a non-nil error
when `errString` is non-empty, nil (`none`) otherwise. -/
def ErrorResponse.Failed (b : ErrorResponse) : Option ErrorResponse :=
  if b.errString ≠ "" then some b else none

/-- Models `ErrorResponse.NewError(code, format, vars...)`: stores the code
and the `fmt.Sprintf` of the format with its operands. The call sites under
verification pass verb-free formats, so formatting follows
`sprintfVerbFree`; `extras` are the leftover operands rendered
`type=value`. -/
def ErrorResponse.NewError (b : ErrorResponse) (code : Int) (format : String)
    (extras : List String) : ErrorResponse :=
  { b with basicResponse := { b.basicResponse with code := code },
           errString := sprintfVerbFree format extras }

/-- Models `BasicResponse.StatusCode`. -/
def BasicResponse.StatusCode (b : BasicResponse) : Int :=
  b.code

/-- Models `ErrorResponse.Error` (the textual error contract). -/
def ErrorResponse.ErrorText (b : ErrorResponse) : String :=
  b.errString

/-- Models `net/http.StatusText` for the common status codes; unknown codes
yield the empty string, as in Go. -/
def statusText : Int → String
  | 200 => "OK"
  | 201 => "Created"
  | 204 => "No Content"
  | 301 => "Moved Permanently"
  | 302 => "Found"
  | 400 => "Bad Request"
  | 401 => "Unauthorized"
  | 403 => "Forbidden"
  | 404 => "Not Found"
  | 409 => "Conflict"
  | 429 => "Too Many Requests"
  | 500 => "Internal Server Error"
  | 502 => "Bad Gateway"
  | 503 => "Service Unavailable"
  | _ => ""

/-! ## JSON marshalling (models `encoding/json` on the covered domain) -/

/-- JSON string quoting for the characters exercised by the engine. -/
def jsonQuote (s : String) : String :=
  "\"" ++ (s.toList.flatMap (fun c =>
    if c = '"' then ['\\', '"']
    else if c = '\\' then ['\\', '\\']
    else if c = '\n' then ['\\', 'n']
    else [c])).asString ++ "\""

/-- Wire name a struct field gets from `encoding/json`: the first segment of
its `json` tag when present and non-empty, the declared name otherwise
(`"-,"` names the field `-`). -/
def jsonFieldName (m : FieldMeta) : String :=
  match m.jsonTag with
  | some t => if t = "-," then "-" else
      let seg := firstSegment t
      if seg = "" then m.name else seg
  | none => m.name

mutual

/-- Models `json.Marshal` on the reflected value domain of `RValue`:
`none` is a marshalling error, which arises exactly when the value contains
a kind `encoding/json` rejects (modelled by `chanVal`, e.g. a channel). -/
def jsonMarshalValue : RValue → Option String
  | .invalid => some "null"
  | .str s => some (jsonQuote s)
  | .intV i => some (toString i)
  | .uintV n => some (toString n)
  | .boolV b => some (if b then "true" else "false")
  | .ptr e => jsonMarshalValue e
  | .slice xs =>
      match jsonMarshalList xs with
      | some parts => some ("[" ++ String.intercalate "," parts ++ "]")
      | none => none
  | .structV _ fields =>
      match jsonMarshalFields fields with
      | some parts => some ("\x7b" ++ String.intercalate "," parts ++ "\x7d")
      | none => none
  | .chanVal => none

/-- Marshals the elements of a slice, failing if any element fails. -/
def jsonMarshalList : List RValue → Option (List String)
  | [] => some []
  | v :: rest =>
      match jsonMarshalValue v with
      | none => none
      | some s =>
          match jsonMarshalList rest with
          | none => none
          | some r => some (s :: r)

/-- Marshals the fields of a struct (fields whose `json` tag is the bare `-`
are skipped), failing if any marshalled field fails. -/
def jsonMarshalFields : List (FieldMeta × RValue) → Option (List String)
  | [] => some []
  | (m, v) :: rest =>
      if m.jsonTag = some "-" then jsonMarshalFields rest
      else
        match jsonMarshalValue v with
        | none => none
        | some s =>
            match jsonMarshalFields rest with
            | none => none
            | some r => some ((jsonQuote (jsonFieldName m) ++ ":" ++ s) :: r)

end

/-! ## Tag resolution -/

/-- Models `readClientTag`: reads the `urlEncode` tag, then the structured
swaggest schema-tag source (which short-circuits when present), then the
`request`, `alias` and `json` tags. Only the first comma-delimited segment
of the `json` tag is kept; a bare `-` gives no alias, while `-,` gives the
literal alias `-`. -/
def readClientTag (field : FieldMeta) : TagInfo :=
  let encode :=
    match field.urlEncodeTag with
    | some tag => tag
    | none => ""
  match field.swaggestTag with
  | some (rp, al, ja) =>
      { requestPart := rp, aliasName := al, jsonAlias := ja, encode := encode }
  | none =>
      let requestPart :=
        match field.requestTag with
        | some tag => tag
        | none => ""
      let aliasName :=
        match field.aliasTag with
        | some tag => tag
        | none => ""
      let jsonAlias :=
        match field.jsonTag with
        | none => ""
        | some tag =>
            if tag = "-," then "-"
            else
              let ja := firstSegment tag
              if ja = "-" then "" else ja
      { requestPart := requestPart, aliasName := aliasName,
        jsonAlias := jsonAlias, encode := encode }

/-! ## Value conversion -/

/-- Models the pointer-traversal loop of `assignRequest`:
`for ; !fieldVal.IsZero() && fieldVal.Type().Kind() == reflect.Ptr; fieldVal = fieldVal.Elem()`.
Pointers are followed until a non-pointer value or a nil pointer
(`ptr invalid`, whose `IsZero` is true) is reached; non-pointer inputs are
returned unchanged. -/
def derefPtrChain : RValue → RValue
  | .ptr .invalid => .ptr .invalid
  | .ptr e => derefPtrChain e
  | v => v

/-- Termination bound for `assignRequestFields`: pointer traversal never
enlarges a value. -/
def derefPtrChain_sizeOf_le : (v : RValue) → sizeOf (derefPtrChain v) ≤ sizeOf v
  | .invalid => by simp [derefPtrChain]
  | .str s => by simp [derefPtrChain]
  | .intV i => by simp [derefPtrChain]
  | .uintV n => by simp [derefPtrChain]
  | .boolV b => by simp [derefPtrChain]
  | .ptr .invalid => by simp [derefPtrChain]
  | .ptr (.str s) => by simp [derefPtrChain]
  | .ptr (.intV i) => by simp [derefPtrChain]
  | .ptr (.uintV n) => by simp [derefPtrChain]
  | .ptr (.boolV b) => by simp [derefPtrChain]
  | .ptr (.ptr e) => by
      have ih := derefPtrChain_sizeOf_le (.ptr e)
      simp only [derefPtrChain] at ih ⊢
      simp at ih ⊢
      omega
  | .ptr (.slice xs) => by simp [derefPtrChain]
  | .ptr (.structV c fs) => by simp [derefPtrChain]
  | .ptr .chanVal => by simp [derefPtrChain]
  | .slice xs => by simp [derefPtrChain]
  | .structV c fs => by simp [derefPtrChain]
  | .chanVal => by simp [derefPtrChain]

mutual

/-- Models `convertBaseValueToString`: an invalid value converts to `none`
(absent); pointers are dereferenced recursively; slices delegate to the
slice converter and return before the final escaping step; the remaining
kinds are rendered to a string (struct values via `json.Marshal`, where the
source's sentinel error string is assigned on failure but immediately
overwritten by `string(body)` with `body` nil, hence the empty string) and
the result is `url.QueryEscape`d when `urlEncode` is set. The `default`
kind case yields `"?"`. -/
def convertBaseValueToString (src : RValue) (urlEncode : Bool) : Option String :=
  match src with
  | .invalid => none
  | .ptr e => convertBaseValueToString e urlEncode
  | .slice xs => some (String.intercalate "," (convertSliceAccum xs urlEncode))
  | v =>
      let result : String :=
        match v with
        | .str s => s
        | .intV i => toString i
        | .boolV b => if b then "true" else "false"
        | .uintV n => toString n
        | .structV canI fields =>
            if canI then
              match jsonMarshalValue (.structV canI fields) with
              | some body => body
              | none => ""
            else "null"
        | _ => "?"
      some (if urlEncode then queryEscape result else result)

/-- Models the accumulation loop of `convertSliceToStringValue`: each
element is converted recursively (with the same `urlEncode` flag), elements
converting to `none` are skipped, and when `urlEncode` is set each kept
element is `url.QueryEscape`d a second time before being accumulated. -/
def convertSliceAccum : List RValue → Bool → List String
  | [], _ => []
  | v :: rest, urlEncode =>
      match convertBaseValueToString v urlEncode with
      | none => convertSliceAccum rest urlEncode
      | some s =>
          (if urlEncode then queryEscape s else s) :: convertSliceAccum rest urlEncode

end

/-- Models `convertSliceToStringValue`: the accumulated element strings
joined with an unescaped comma. -/
def convertSliceToStringValue (value : List RValue) (urlEncode : Bool) : String :=
  String.intercalate "," (convertSliceAccum value urlEncode)

/-- Models `reflect.Value.CanInterface` on the modelled domain: carried
explicitly on struct values, false for the invalid value, true elsewhere. -/
def RValue.canInterfaceB : RValue → Bool
  | .structV canI _ => canI
  | .invalid => false
  | _ => true

/-! ## Part-specific writers -/

/-- Models `writeRequestCookie`: converts the value, errors when required
and absent/empty, otherwise adds a cookie named `fieldName` whose value is
the converted string or `""` when absent. -/
def writeRequestCookie (r : HttpRequest) (fieldName : String) (fieldValue : RValue)
    (isRequired : Bool) (urlEncode : Bool) : Except String HttpRequest :=
  let convertedValue := convertBaseValueToString fieldValue urlEncode
  if isRequired ∧ (convertedValue = none ∨ convertedValue = some "") then
    .error ("required cookie not found or not set: " ++ fieldName)
  else
    .ok { r with cookies := r.cookies ++ [(fieldName, convertedValue.getD "")] }

/-- Models `writeRequestHeader`: converts the value, errors when required
and absent/empty, otherwise adds (additively) a header value, `""` when
absent. -/
def writeRequestHeader (r : HttpRequest) (fieldName : String) (fieldValue : RValue)
    (isRequired : Bool) (urlEncode : Bool) : Except String HttpRequest :=
  let convertedValue := convertBaseValueToString fieldValue urlEncode
  if isRequired ∧ (convertedValue = none ∨ convertedValue = some "") then
    .error ("required header not found or not set: " ++ fieldName)
  else
    .ok { r with headers := r.headers ++ [(fieldName, convertedValue.getD "")] }

/-- Models `writeRequestQueryParam`: converts the value with the per-field
`urlEncode` flag suppressed (the source passes `false`), errors when
required and absent/empty (with the source's copy-pasted "header" message),
otherwise adds a query parameter, `""` when absent. The re-encoding of the
whole query string into `RawQuery` is modelled by keeping the parameter
list itself. -/
def writeRequestQueryParam (r : HttpRequest) (fieldName : String) (fieldValue : RValue)
    (isRequired : Bool) (_urlEncode : Bool) : Except String HttpRequest :=
  let convertedValue := convertBaseValueToString fieldValue false
  if isRequired ∧ (convertedValue = none ∨ convertedValue = some "") then
    .error ("required header not found or not set: " ++ fieldName)
  else
    .ok { r with query := r.query ++ [(fieldName, convertedValue.getD "")] }

/-- Replaces every value stored under `key` by a single new entry, as Go
`http.Header.Set` does (header-name canonicalization is not modelled; the
call sites use one fixed name). -/
def headerSet (hs : List (String × String)) (key value : String) : List (String × String) :=
  (hs.filter (fun p => ¬(p.1 = key))) ++ [(key, value)]

/-- Models `writeRequestBody`: sets `Content-Type: application/json`, then
marshals the field value as the whole request body; a marshalling error or
a non-interfaceable value is an error. -/
def writeRequestBody (r : HttpRequest) (fieldName : String) (fieldValue : RValue) :
    Except String HttpRequest :=
  let r := { r with headers := headerSet r.headers "Content-Type" "application/json" }
  if fieldValue.canInterfaceB then
    match jsonMarshalValue fieldValue with
    | some jsBody => .ok { r with body := some jsBody }
    | none => .error ("client generation failed, json: unsupported type, of client field " ++ fieldName)
  else
    .error ("client generation failed, unable to get body of client field " ++ fieldName)

/-- Models `writeRequestPath`: converts the value, errors when required and
absent/empty (before any substitution), errors when the literal
`\x7bfieldName\x7d` placeholder does not occur in the URL path (whatever the
required flag), and otherwise replaces every occurrence of the placeholder
with the converted value, or with `""` when the value is absent. -/
def writeRequestPath (r : HttpRequest) (fieldName : String) (fieldValue : RValue)
    (isRequired : Bool) (urlEncode : Bool) : Except String HttpRequest :=
  let convertedValue := convertBaseValueToString fieldValue urlEncode
  if isRequired ∧ (convertedValue = none ∨ convertedValue = some "") then
    .error ("required path variable not found or not set: " ++ fieldName)
  else
    let path := r.urlPath
    let replaceableString := "\x7b" ++ fieldName ++ "\x7d"
    if ¬(containsSubstr path replaceableString = true) then
      .error ("could not find path variable: " ++ fieldName ++ ", in path [" ++ path ++
        "], wanted syntax [" ++ replaceableString ++ "]")
    else
      match convertedValue with
      | some v => .ok { r with urlPath := replaceAll path replaceableString v }
      | none => .ok { r with urlPath := replaceAll r.urlPath replaceableString "" }

/-- Models `returnClientOperationByTagValue`: maps a placement tag value to
its writer; unknown tags map to `none` (Go's nil function). -/
def returnClientOperationByTagValue (tagName : String) :
    Option (HttpRequest → String → RValue → Bool → Bool → Except String HttpRequest) :=
  if tagName = "cookie" ∨ tagName = "cookie!" then some writeRequestCookie
  else if tagName = "header" ∨ tagName = "header!" then some writeRequestHeader
  else if tagName = "query" ∨ tagName = "query!" then some writeRequestQueryParam
  else if tagName = "path" ∨ tagName = "path!" then some writeRequestPath
  else none

/-! ## Field assignment -/

/-- Is the declared kind of a value `reflect.Struct`? (On the modelled
domain the declared kind coincides with the value's constructor.) -/
def RValue.isStructKind : RValue → Bool
  | .structV _ _ => true
  | _ => false

mutual

/-- Models `assignRequest`: only struct kinds are accepted; the fields are
then processed in declaration order. The un-tagged nested/embedded case
mirrors the source's `return assignRequest(r, fieldVal)` statement, which
returns the recursion's result unconditionally: a successful recursion also
ends the walk, leaving the remaining fields unprocessed. -/
def assignRequest (r : HttpRequest) (value : RValue) : Except String HttpRequest :=
  match value with
  | .structV _ fields => assignRequestFields r fields
  | _ => .error "request object must be a Struct type"
termination_by sizeOf value
decreasing_by
  simp

/-- Models the field loop of `assignRequest`: per field, traverse pointer
chains, resolve tags, then recurse (un-tagged struct/embedded), write the
body (`form`), dispatch to a writer (other non-empty tags, the required
flag being a trailing `!` on the tag), or skip the field. Writer errors
abort the walk. -/
def assignRequestFields (r : HttpRequest) : List (FieldMeta × RValue) → Except String HttpRequest
  | [] => .ok r
  | (meta, rawVal) :: rest =>
      let fieldVal := derefPtrChain rawVal
      let tags := readClientTag meta
      let requestTag := tags.requestPart
      let urlEncode := parseBoolLenient tags.encode
      if requestTag = "" ∧ (rawVal.isStructKind ∨ meta.anonymous) then
        assignRequest r fieldVal
      else if requestTag = "form" then
        let fieldName :=
          let n := meta.name
          let n := if tags.jsonAlias ≠ "" then tags.jsonAlias else n
          if tags.aliasName ≠ "" then tags.aliasName else n
        match writeRequestBody r fieldName fieldVal with
        | .error e => .error e
        | .ok r2 => assignRequestFields r2 rest
      else if requestTag ≠ "" then
        match returnClientOperationByTagValue requestTag with
        | none => .error ("unknown 'client' operation: " ++ requestTag)
        | some operation =>
            let fieldName :=
              let n := meta.name
              let n := if tags.jsonAlias ≠ "" then tags.jsonAlias else n
              if tags.aliasName ≠ "" then tags.aliasName else n
            match operation r fieldName fieldVal (hasSuffix requestTag "!") urlEncode with
            | .error e => .error e
            | .ok r2 => assignRequestFields r2 rest
      else
        assignRequestFields r rest
termination_by fields => sizeOf fields
decreasing_by
  · simp
    exact lt_of_le_of_lt (derefPtrChain_sizeOf_le _) (by omega)
  · simp
  · simp
  · simp

end

/-! ## Request generation and execution -/

/-- Models `request.HttpRouteInfo` as used by the generator: logical name,
method and URL path template. -/
structure RouteInfo where
  name : String
  method : String
  path : String
deriving Repr, DecidableEq

/-- Models a `request.HttpRequest` value handed to `GenerateClientRequest`:
its route info, the optional `Validator` capability (`some result` when
implemented, where `result` is `Validate()`'s error, `none` inside meaning
validation passed), the `SkipClientValidation` marker, the `jsonBody`
whole-body-serialization marker, and the reflected record value. The
`Requester` shortcut capability is not modelled: no claim under
verification depends on it. -/
structure ServiceRequest where
  info : RouteInfo
  validator : Option (Option String)
  skipClientValidation : Bool
  jsonBody : Bool
  value : RValue
deriving Repr

/-- Models `GenerateClientRequest`: nil client is an error; validation runs
unless skipped; base URL and path are joined with exactly one slash
(`url.Parse` is modelled as the identity on the joined string, its errors
being outside the claims under verification); one pointer layer is
dereferenced and a non-struct record is an error; a `jsonBody` record
marshals itself as the whole body; finally every field is assigned by
`assignRequest`, whose error comes back wrapped with the record's
diagnostic name. -/
def GenerateClientRequest (baseUrl : String) (serviceRequest : Option ServiceRequest) :
    Except String HttpRequest :=
  match serviceRequest with
  | none => .error "nil client not supported"
  | some sr =>
      let validationError : Option String :=
        match sr.validator with
        | some res => if sr.skipClientValidation then none else res
        | none => none
      match validationError with
      | some e => .error ("client validation err: " ++ e)
      | none =>
          let srPath := trimLeftSlashes sr.info.path
          let base := trimRightSlashes baseUrl
          let joinedStr := base ++ "/" ++ srPath
          let clientValue :=
            match sr.value with
            | .ptr e => e
            | v => v
          if clientValue.isStructKind then
            let bodyResult : Except String (Option String) :=
              if sr.jsonBody then
                match jsonMarshalValue sr.value with
                | some b => .ok (some b)
                | none =>
                    .error ("client generation failed, json: unsupported type, of client " ++
                      sr.info.name)
              else .ok none
            match bodyResult with
            | .error e => .error e
            | .ok bodyOpt =>
                let requestResult : HttpRequest :=
                  { urlPath := joinedStr, query := [], headers := [], cookies := [],
                    body := bodyOpt }
                match assignRequest requestResult clientValue with
                | .error e =>
                    .error ("client field assignment failed, for client " ++ sr.info.name ++
                      ": " ++ e)
                | .ok req => .ok req
          else .error "non-struct client not supported"

/-- Models `DoGeneratedRequest` specialized to a nil `responseObj` (the case
the claims under verification address): the response body is fully read,
then a non-200 status synthesizes an `ErrorResponse` via
`NewError(status, http.StatusText(status), "body", body)` — a verb-free
format with two extra operands — and returns it, while a 200 status returns
no error and does nothing further. Capability dispatch does not apply to
the nil target. -/
def DoGeneratedRequestNilTarget (resp : HttpResponse) : Option ErrorResponse :=
  if resp.status ≠ 200 then
    some (ErrorResponse.NewError {} resp.status (statusText resp.status)
      ["string=body", "[]uint8=" ++ goByteSliceRendering resp.body])
  else
    none

/-- Models `DoRequest` with a nil response object: generate the request,
return a generation error immediately, otherwise perform the transport call
and hand the response to the executor. The second component records the
transport calls issued (`client.Do`), so that "no network call" is
observable in the model. -/
def DoRequest (baseUrl : String) (clientRequest : Option ServiceRequest)
    (transport : HttpRequest → HttpResponse) :
    Except String (Option ErrorResponse) × List HttpRequest :=
  match GenerateClientRequest baseUrl clientRequest with
  | .error e => (.error e, [])
  | .ok c =>
      let resp := transport c
      (.ok (DoGeneratedRequestNilTarget resp), [c])

/-! ## Expanded logging -/

/-- An argument handed to `ExpandedLogging.Log` (a Go `interface{}`
operand): a string, an int, or nil. -/
inductive LogArg where
  | argStr (s : String)
  | argInt (i : Int)
  | argNil
deriving Repr, DecidableEq

/-- Models `fmt.Sprintf("%s", v)` on `LogArg` operands: strings render as
themselves, non-string operands get Go's `%!s(...)` diagnostic rendering. -/
def sprintfPctS : LogArg → String
  | .argStr s => s
  | .argInt i => "%!s(int=" ++ toString i ++ ")"
  | .argNil => "%!s(<nil>)"

/-- Go map assignment `m[k] = v` on an association-list model: replace the
existing entry for `k` or append a new one. -/
def mapInsert (m : List (String × LogArg)) (k : String) (v : LogArg) :
    List (String × LogArg) :=
  match m with
  | [] => [(k, v)]
  | (k', v') :: rest => if k' = k then (k, v) :: rest else (k', v') :: mapInsert rest k v

/-- Go map lookup `m[k]` on the association-list model. -/
def mapLookup (m : List (String × LogArg)) (k : String) : Option LogArg :=
  match m with
  | [] => none
  | (k', v') :: rest => if k' = k then some v' else mapLookup rest k

/-- Models `ExpandedLogging.Log`: arguments are consumed two at a time, the
even-position one stringified with `%s` as the key and the odd-position one
stored as its value; a trailing unpaired argument becomes a key mapped to
nil. (The mutex and the nil-map initialization are modelled by the explicit
state threading.) -/
def ExpandedLogging.Log (m : List (String × LogArg)) : List LogArg → List (String × LogArg)
  | [] => m
  | [k] => mapInsert m (sprintfPctS k) .argNil
  | k :: v :: rest => ExpandedLogging.Log (mapInsert m (sprintfPctS k) v) rest

/-- Models `ExpandedLogging.GetAll`: a fresh map filled by iterating the
accumulated entries (the defensive copy). -/
def ExpandedLogging.GetAll (m : List (String × LogArg)) : List (String × LogArg) :=
  m.foldl (fun acc p => mapInsert acc p.1 p.2) []

/-- Flattens explicit key/value pairs into an argument list; used to state
facts about `Log` calls with an even number of arguments. -/
def flattenPairs (ps : List (LogArg × LogArg)) : List LogArg :=
  ps.flatMap (fun p => [p.1, p.2])

/-! ## Concrete fixtures used by the claim instances -/

/-- Stacks `n` pointer layers on top of a value. -/
def nestPtr : Nat → RValue → RValue
  | 0, v => v
  | n + 1, v => .ptr (nestPtr n v)

/-- An un-tagged plain struct field (triggers the nested-struct recursion). -/
def innerMeta : FieldMeta :=
  { name := "Inner", requestTag := none, aliasTag := none, jsonTag := none,
    urlEncodeTag := none, swaggestTag := none, anonymous := false }

/-- A field placed on the header part, optional. -/
def headerMeta : FieldMeta :=
  { name := "B", requestTag := some "header", aliasTag := none, jsonTag := none,
    urlEncodeTag := none, swaggestTag := none, anonymous := false }

/-- A field placed on the header part, required (trailing `!`). -/
def requiredHeaderMeta : FieldMeta :=
  { name := "B", requestTag := some "header!", aliasTag := none, jsonTag := none,
    urlEncodeTag := none, swaggestTag := none, anonymous := false }

/-- A bare field carrying a value `encoding/json` cannot marshal. -/
def chanMeta : FieldMeta :=
  { name := "C", requestTag := none, aliasTag := none, jsonTag := none,
    urlEncodeTag := none, swaggestTag := none, anonymous := false }

/-- An empty outbound request against path `/p`. -/
def emptyRequest : HttpRequest :=
  { urlPath := "/p", query := [], headers := [], cookies := [], body := none }

/-- A record whose first field is an un-tagged nested struct and whose
second field is header-placed: the fixture for the early-return behavior. -/
def recordWithNestedThenHeader : RValue :=
  .structV true [(innerMeta, .structV true []), (headerMeta, .str "x")]

/-- A record whose first field is an un-tagged nested struct and whose
second field is a required header left empty: the fixture for the
required-field bypass. -/
def recordWithNestedThenRequired : RValue :=
  .structV true [(innerMeta, .structV true []), (requiredHeaderMeta, .str "")]

/-- The same required-header-empty record without the preceding nested
struct. -/
def recordWithRequiredOnly : RValue :=
  .structV true [(requiredHeaderMeta, .str "")]

/-- The service request wrapping `recordWithNestedThenRequired`. -/
def serviceRequestNestedThenRequired : ServiceRequest :=
  { info := { name := "TestReq", method := "GET", path := "/v1/x" },
    validator := none, skipClientValidation := false, jsonBody := false,
    value := recordWithNestedThenRequired }

/-- The service request wrapping `recordWithRequiredOnly`. -/
def serviceRequestRequiredOnly : ServiceRequest :=
  { info := { name := "TestReq", method := "GET", path := "/v1/x" },
    validator := none, skipClientValidation := false, jsonBody := false,
    value := recordWithRequiredOnly }

/-- A fixed transport that always answers 200/`"ok"`; used to observe
whether the network call is issued. -/
def okTransport : HttpRequest → HttpResponse :=
  fun _ => { status := 200, body := "ok" }

/-- A struct value containing a field `encoding/json` rejects, so that
`json.Marshal` fails on it. -/
def structWithChanField : RValue :=
  .structV true [(chanMeta, .chanVal)]

/-- The metadata whose `json` tag is the `-,` sentinel. -/
def dashCommaMeta : FieldMeta :=
  { name := "F", requestTag := none, aliasTag := none, jsonTag := some "-,",
    urlEncodeTag := none, swaggestTag := none, anonymous := false }

/-- The metadata whose `json` tag is the bare `-` sentinel. -/
def bareDashMeta : FieldMeta :=
  { name := "F", requestTag := none, aliasTag := none, jsonTag := some "-",
    urlEncodeTag := none, swaggestTag := none, anonymous := false }

/-- Metadata with an ordinary `json` tag carrying options. -/
def namedJsonMeta : FieldMeta :=
  { name := "F", requestTag := none, aliasTag := none,
    jsonTag := some "name,omitempty", urlEncodeTag := none, swaggestTag := none,
    anonymous := false }

/-! ## Shared lemmas -/

theorem convertBaseValueToString_ptr (e : RValue) (enc : Bool) :
    convertBaseValueToString (.ptr e) enc = convertBaseValueToString e enc := by
  simp [convertBaseValueToString]

theorem convertBaseValueToString_invalid (enc : Bool) :
    convertBaseValueToString .invalid enc = none := by
  simp [convertBaseValueToString]

theorem convertBaseValueToString_str (s : String) (enc : Bool) :
    convertBaseValueToString (.str s) enc =
      some (if enc then queryEscape s else s) := by
  simp [convertBaseValueToString]

/-! ## Claims -/

/-- Claim C8: the Value Converter dereferences pointer chains of any depth,
and a chain that is nil at any level converts to absent (`none`), never to
a literal `"nil"` string and never to an empty-string result. The chain
below is `k` pointer layers over a nil pointer, covering "nil at any
level" for chains of every depth. -/
theorem convert_nil_pointer_chain_is_absent (k : Nat) (enc : Bool) :
    convertBaseValueToString (nestPtr k (.ptr .invalid)) enc = none ∧
    convertBaseValueToString (nestPtr k (.ptr .invalid)) enc ≠ some "nil" ∧
    convertBaseValueToString (nestPtr k (.ptr .invalid)) enc ≠ some "" := by
  have h : convertBaseValueToString (nestPtr k (.ptr .invalid)) enc = none := by
    induction k with
    | zero =>
        simp [nestPtr, convertBaseValueToString_ptr, convertBaseValueToString_invalid]
    | succ n ih =>
        simpa [nestPtr, convertBaseValueToString_ptr] using ih
  exact ⟨h, by simp [h], by simp [h]⟩

/-- Claim C2 (code bug): for a non-pointer struct value the converter does
serialize via JSON on success (last conjunct), but when `json.Marshal`
fails the source's sentinel assignment is dead — it is overwritten by
`result = string(body)` with `body` nil — so the conversion yields the
empty string, not the sentinel error-object string the claim describes. -/
theorem convert_struct_marshal_failure_yields_empty_string :
    jsonMarshalValue structWithChanField = none ∧
    convertBaseValueToString structWithChanField false = some "" ∧
    convertBaseValueToString structWithChanField true = some "" ∧
    ("" : String) ≠ "\x7b \"error\": \"JSON parse error\" \x7d" ∧
    convertBaseValueToString (.structV true [(innerMeta, .str "v")]) false =
      some "\x7b\"Inner\":\"v\"\x7d" ∧
    jsonMarshalValue (.structV true [(innerMeta, .str "v")]) =
      some "\x7b\"Inner\":\"v\"\x7d" := by
  refine ⟨?_, ?_, ?_, ?_, ?_, ?_⟩
  · simp [structWithChanField, jsonMarshalValue, jsonMarshalFields, chanMeta]
  · simp [structWithChanField, convertBaseValueToString, jsonMarshalValue,
      jsonMarshalFields, chanMeta]
  · simp [structWithChanField, convertBaseValueToString, jsonMarshalValue,
      jsonMarshalFields, chanMeta, queryEscape]
    rfl
  · decide
  · simp [convertBaseValueToString, jsonMarshalValue, jsonMarshalFields,
      jsonMarshalList, innerMeta, jsonFieldName, jsonQuote]
    rfl
  · simp [jsonMarshalValue, jsonMarshalFields, jsonMarshalList, innerMeta,
      jsonFieldName, jsonQuote]
    rfl

/-- Claim C3 counterexample: the claim says that for the `-,` serialization
tag the resolved serialization alias is empty, but `readClientTag` resolves
`-,` to the literal alias `-`, which is not empty. -/
theorem readClientTag_dashComma_counterexample :
    (readClientTag dashCommaMeta).jsonAlias = "-" ∧
    ¬((readClientTag dashCommaMeta).jsonAlias = "") := by
  constructor
  · simp [readClientTag, dashCommaMeta]
  · simp [readClientTag, dashCommaMeta]

/-- Claim C3 as amended: tag resolution takes only the first comma-delimited
segment of the `json` tag as the serialization alias; the bare `-` tag
resolves to an empty alias (so the wire name falls back), while the `-,`
tag resolves to the literal alias `-`. -/
theorem readClientTag_json_first_segment (m : FieldMeta) (tag : String)
    (hsw : m.swaggestTag = none) (hj : m.jsonTag = some tag) :
    (readClientTag m).jsonAlias =
      if tag = "-," then "-"
      else if firstSegment tag = "-" then ""
      else firstSegment tag := by
  simp [readClientTag, hsw, hj]

/-- Witness for `readClientTag_json_first_segment` at the tag
`"name,omitempty"`. -/
theorem readClientTag_json_first_segment_witness :
    (readClientTag namedJsonMeta).jsonAlias = "name" := by
  have h := readClientTag_json_first_segment namedJsonMeta "name,omitempty" rfl rfl
  rw [h]
  rfl

/-- Claim C1 (code bug): in `assignRequest` the nested-struct case executes
`return assignRequest(r, fieldVal)`, so a successful recursion also ends
the walk. First conjunct: on a record whose first field is an un-tagged
nested struct, the later header-placed field is never written (the request
comes back unchanged). Second conjunct: the same header field alone is
written, so its omission above is the early return, not the writer. Third
conjunct: an error inside the recursion does propagate immediately. -/
theorem assignRequest_returns_after_successful_recursion :
    assignRequest emptyRequest recordWithNestedThenHeader = .ok emptyRequest ∧
    (∀ rq : HttpRequest,
      assignRequest rq (.structV true [(headerMeta, .str "x")]) =
        .ok { rq with headers := rq.headers ++ [("B", "x")] }) ∧
    (∀ rq : HttpRequest,
      assignRequest rq (.structV true
          [(innerMeta, .structV true
              [({ name := "X", requestTag := some "bogus", aliasTag := none,
                  jsonTag := none, urlEncodeTag := none, swaggestTag := none,
                  anonymous := false }, .str "x")]),
            (headerMeta, .str "x")]) =
        .error "unknown 'client' operation: bogus") := by
  refine ⟨?_, ?_, ?_⟩
  · simp [recordWithNestedThenHeader, assignRequest, assignRequestFields,
      innerMeta, headerMeta, readClientTag, derefPtrChain, RValue.isStructKind]
  · intro rq
    simp [assignRequest, assignRequestFields, headerMeta, readClientTag,
      derefPtrChain, returnClientOperationByTagValue, writeRequestHeader,
      hasSuffix, parseBoolLenient, convertBaseValueToString_str,
      RValue.isStructKind]
  · intro rq
    simp [assignRequest, assignRequestFields, innerMeta, headerMeta,
      readClientTag, derefPtrChain, returnClientOperationByTagValue,
      parseBoolLenient, RValue.isStructKind]

/-- Claim C4 (code bug): a record can contain a field whose placement tag
ends in `!` and whose value converts to empty, yet the end-to-end operation
issues the network transport call and returns no required-not-set error:
the nested-struct early return of `assignRequest` skips the required field
before it is checked. The final conjunct shows the contrast: with no
un-tagged nested struct ahead of it, the same required field aborts the
operation with the required-not-set error and the transport is never
called. -/
theorem doRequest_required_field_bypassed_by_early_return :
    requiredHeaderMeta.requestTag = some "header!" ∧
    hasSuffix "header!" "!" = true ∧
    convertBaseValueToString (.str "") false = some "" ∧
    (DoRequest "http://h" (some serviceRequestNestedThenRequired) okTransport).1 =
      .ok none ∧
    (DoRequest "http://h" (some serviceRequestNestedThenRequired) okTransport).2.length
      = 1 ∧
    DoRequest "http://h" (some serviceRequestRequiredOnly) okTransport =
      (.error
        "client field assignment failed, for client TestReq: required header not found or not set: B",
        []) := by
  refine ⟨rfl, by decide, ?_, ?_, ?_, ?_⟩
  · simp [convertBaseValueToString_str]
  · simp [DoRequest, GenerateClientRequest, serviceRequestNestedThenRequired,
      recordWithNestedThenRequired, assignRequest, assignRequestFields,
      innerMeta, requiredHeaderMeta, readClientTag, derefPtrChain,
      RValue.isStructKind, DoGeneratedRequestNilTarget, okTransport]
  · simp [DoRequest, GenerateClientRequest, serviceRequestNestedThenRequired,
      recordWithNestedThenRequired, assignRequest, assignRequestFields,
      innerMeta, requiredHeaderMeta, readClientTag, derefPtrChain,
      RValue.isStructKind, DoGeneratedRequestNilTarget, okTransport]
  · simp [DoRequest, GenerateClientRequest, serviceRequestRequiredOnly,
      recordWithRequiredOnly, assignRequest, assignRequestFields,
      requiredHeaderMeta, readClientTag, derefPtrChain, RValue.isStructKind,
      returnClientOperationByTagValue, writeRequestHeader, hasSuffix,
      parseBoolLenient, convertBaseValueToString_str, okTransport]
    have hsuf : (['!'] <:+ ['h', 'e', 'a', 'd', 'e', 'r', '!']) := by decide
    simp [hsuf]

/-- Claim C5: for every path-placed field, a required field whose converted
value is absent or empty errors before any substitution; a missing literal
`\x7bwireName\x7d` placeholder in the URL path is an error regardless of the
required flag; otherwise every occurrence of the placeholder is replaced by
the converted value, or by the empty string when the value is absent. -/
theorem writeRequestPath_spec (r : HttpRequest) (fieldName : String) (v : RValue)
    (isRequired : Bool) (urlEncode : Bool) :
    (isRequired = true →
      (convertBaseValueToString v urlEncode = none ∨
        convertBaseValueToString v urlEncode = some "") →
      writeRequestPath r fieldName v isRequired urlEncode =
        .error ("required path variable not found or not set: " ++ fieldName)) ∧
    (¬(isRequired = true ∧
        (convertBaseValueToString v urlEncode = none ∨
          convertBaseValueToString v urlEncode = some "")) →
      containsSubstr r.urlPath ("\x7b" ++ fieldName ++ "\x7d") = false →
      writeRequestPath r fieldName v isRequired urlEncode =
        .error ("could not find path variable: " ++ fieldName ++ ", in path [" ++
          r.urlPath ++ "], wanted syntax [" ++ ("\x7b" ++ fieldName ++ "\x7d") ++ "]")) ∧
    (¬(isRequired = true ∧
        (convertBaseValueToString v urlEncode = none ∨
          convertBaseValueToString v urlEncode = some "")) →
      containsSubstr r.urlPath ("\x7b" ++ fieldName ++ "\x7d") = true →
      writeRequestPath r fieldName v isRequired urlEncode =
        .ok { r with urlPath := replaceAll r.urlPath ("\x7b" ++ fieldName ++ "\x7d") ((convertBaseValueToString v urlEncode).getD "") }) := by
  refine ⟨?_, ?_, ?_⟩
  · intro hreq hconv
    simp only [writeRequestPath]
    rw [if_pos ⟨hreq, hconv⟩]
  · intro hnot hmiss
    simp only [writeRequestPath]
    rw [if_neg hnot, if_pos (by simp [hmiss])]
  · intro hnot hfound
    simp only [writeRequestPath]
    rw [if_neg hnot, if_neg (by simp [hfound])]
    cases hc : convertBaseValueToString v urlEncode with
    | none => simp [hc]
    | some s => simp [hc]

/-- Witness for `writeRequestPath_spec`: substituting the field `id` into
the template `/v1/items/\x7bid\x7d` yields `/v1/items/42`. -/
theorem writeRequestPath_spec_witness :
    ¬((true = true) ∧
        (convertBaseValueToString (.str "42") false = none ∨
          convertBaseValueToString (.str "42") false = some "")) ∧
    containsSubstr "/v1/items/\x7bid\x7d" ("\x7b" ++ "id" ++ "\x7d") = true ∧
    writeRequestPath { urlPath := "/v1/items/\x7bid\x7d", query := [], headers := [], cookies := [], body := none } "id" (.str "42") true false =
      .ok { urlPath := "/v1/items/42", query := [], headers := [], cookies := [], body := none } := by
  have h1 : ¬((true = true) ∧
      (convertBaseValueToString (.str "42") false = none ∨
        convertBaseValueToString (.str "42") false = some "")) := by
    simp [convertBaseValueToString_str]
  have h2 : containsSubstr "/v1/items/\x7bid\x7d" ("\x7b" ++ "id" ++ "\x7d") = true := by
    decide
  refine ⟨h1, h2, ?_⟩
  have h := (writeRequestPath_spec
    { urlPath := "/v1/items/\x7bid\x7d", query := [], headers := [], cookies := [],
      body := none } "id" (.str "42") true false).2.2 h1 h2
  rw [h]
  simp [convertBaseValueToString_str, replaceAll, replaceAllAux, isPrefixOfList]
  rfl

/-- Helper for claim C6: the accumulation loop of the slice converter is
the `filterMap` that converts each element recursively, drops the absent
ones, and applies the second `url.QueryEscape` when requested. -/
theorem convertSliceAccum_eq_filterMap (xs : List RValue) (enc : Bool) :
    convertSliceAccum xs enc =
      xs.filterMap (fun v =>
        (convertBaseValueToString v enc).map
          (fun s => if enc then queryEscape s else s)) := by
  induction xs with
  | nil => simp [convertSliceAccum]
  | cons v rest ih =>
      cases hc : convertBaseValueToString v enc with
      | none => simp [convertSliceAccum, hc, ih]
      | some s => simp [convertSliceAccum, hc, ih]

/-- Claim C6: slice conversion converts each element independently and
recursively, skips elements converting to absent (no segment at all), and
joins with a literal comma; with `urlEncode` set, each element is escaped
inside the recursive conversion and a second time before joining, so
string elements come out double-encoded. -/
theorem convertSliceToStringValue_spec :
    (∀ (xs : List RValue) (enc : Bool),
      convertSliceToStringValue xs enc =
        String.intercalate ","
          (xs.filterMap (fun v =>
            (convertBaseValueToString v enc).map
              (fun s => if enc then queryEscape s else s)))) ∧
    (∀ s : String, convertBaseValueToString (.str s) true = some (queryEscape s)) ∧
    (∀ s : String,
      convertSliceToStringValue [.str s] true = queryEscape (queryEscape s)) ∧
    (∀ (xs ys : List RValue) (enc : Bool),
      convertSliceToStringValue (xs ++ .ptr .invalid :: ys) enc =
        convertSliceToStringValue (xs ++ ys) enc) := by
  refine ⟨?_, ?_, ?_, ?_⟩
  · intro xs enc
    simp [convertSliceToStringValue, convertSliceAccum_eq_filterMap]
  · intro s
    simp [convertBaseValueToString_str]
  · intro s
    simp [convertSliceToStringValue, convertSliceAccum,
      convertBaseValueToString_str, String.intercalate, String.intercalate.go]
  · intro xs ys enc
    simp [convertSliceToStringValue, convertSliceAccum_eq_filterMap,
      convertBaseValueToString_ptr, convertBaseValueToString_invalid]

/-- Claim C7: executing with a nil response target, a non-200 status yields
an Error Carrier whose code equals the response status and whose message
contains (here: starts with) the standard status text, while a 200 status
yields no error and nothing further; in particular status 404 gives code
404 and a message containing `"Not Found"`. -/
theorem doGeneratedRequest_nilTarget_spec (resp : HttpResponse) :
    (resp.status = 200 → DoGeneratedRequestNilTarget resp = none) ∧
    (resp.status ≠ 200 →
      ∃ e : ErrorResponse,
        DoGeneratedRequestNilTarget resp = some e ∧
        e.basicResponse.code = resp.status ∧
        ∃ rest : String, e.errString = statusText resp.status ++ rest) := by
  constructor
  · intro h200
    simp [DoGeneratedRequestNilTarget, h200]
  · intro hne
    refine ⟨ErrorResponse.NewError {} resp.status (statusText resp.status)
      ["string=body", "[]uint8=" ++ goByteSliceRendering resp.body], ?_, ?_, ?_⟩
    · simp [DoGeneratedRequestNilTarget, hne]
    · simp [ErrorResponse.NewError]
    · refine ⟨"%!(EXTRA " ++
        String.intercalate ", "
          ["string=body", "[]uint8=" ++ goByteSliceRendering resp.body] ++ ")", ?_⟩
      simp [ErrorResponse.NewError, sprintfVerbFree, String.append_assoc]

/-- Witness for `doGeneratedRequest_nilTarget_spec` at status 404: the
returned Error Carrier has code 404 and its message starts with the 404
status text `"Not Found"`. -/
theorem doGeneratedRequest_nilTarget_spec_witness :
    ((404 : Int) ≠ 200) ∧
    (∃ e : ErrorResponse,
      DoGeneratedRequestNilTarget { status := 404, body := "body" } = some e ∧
      e.basicResponse.code = 404 ∧
      ∃ rest : String, e.errString = statusText 404 ++ rest) :=
  ⟨by decide,
   (doGeneratedRequest_nilTarget_spec { status := 404, body := "body" }).2 (by decide)⟩

/-- Claim C9: `Failed()` returns the response itself as a non-nil error
exactly when the stored message is non-empty, and a `NewError` call whose
formatted message is empty sets the code while leaving `Failed()` nil, so
such an error is invisible to the has-error contract. -/
theorem errorResponse_failed_iff_message_nonempty :
    (∀ r : ErrorResponse,
      (r.Failed ≠ none ↔ r.errString ≠ "") ∧
      (r.Failed = none ∨ r.Failed = some r)) ∧
    (∀ (b : ErrorResponse) (code : Int) (format : String) (extras : List String),
      (b.NewError code format extras).basicResponse.code = code ∧
      ((b.NewError code format extras).Failed = none ↔
        sprintfVerbFree format extras = "")) ∧
    (∀ (b : ErrorResponse) (code : Int),
      (b.NewError code "" []).basicResponse.code = code ∧
      (b.NewError code "" []).Failed = none) := by
  refine ⟨?_, ?_, ?_⟩
  · intro r
    constructor
    · by_cases h : r.errString = "" <;> simp [ErrorResponse.Failed, h]
    · by_cases h : r.errString = "" <;> simp [ErrorResponse.Failed, h]
  · intro b code format extras
    constructor
    · simp [ErrorResponse.NewError]
    · by_cases h : sprintfVerbFree format extras = "" <;>
        simp [ErrorResponse.NewError, ErrorResponse.Failed, h]
  · intro b code
    constructor
    · simp [ErrorResponse.NewError]
    · simp [ErrorResponse.NewError, ErrorResponse.Failed, sprintfVerbFree]

/-- Looking up the key just inserted yields the inserted value. -/
theorem mapLookup_mapInsert_self (m : List (String × LogArg)) (k : String) (v : LogArg) :
    mapLookup (mapInsert m k v) k = some v := by
  induction m with
  | nil => simp [mapInsert, mapLookup]
  | cons p rest ih =>
      obtain ⟨k', v'⟩ := p
      by_cases h : k' = k
      · simp [mapInsert, mapLookup, h]
      · simp [mapInsert, mapLookup, h, ih]

/-- Looking up a different key is unaffected by an insertion. -/
theorem mapLookup_mapInsert_of_ne (m : List (String × LogArg)) (k k' : String)
    (v : LogArg) (hne : k' ≠ k) :
    mapLookup (mapInsert m k v) k' = mapLookup m k' := by
  induction m with
  | nil => simp [mapInsert, mapLookup, Ne.symm hne]
  | cons p rest ih =>
      obtain ⟨k0, v0⟩ := p
      by_cases h : k0 = k
      · subst h
        simp [mapInsert, mapLookup, hne, Ne.symm hne]
      · by_cases h' : k0 = k'
        · simp [mapInsert, mapLookup, h, h', hne]
        · simp [mapInsert, mapLookup, h, h', ih]

/-- A key that does not occur looks up to `none`. -/
theorem mapLookup_eq_none_of_not_mem (m : List (String × LogArg)) (k : String)
    (h : k ∉ m.map Prod.fst) :
    mapLookup m k = none := by
  induction m with
  | nil => simp [mapLookup]
  | cons p rest ih =>
      obtain ⟨k0, v0⟩ := p
      simp only [List.map_cons, List.mem_cons] at h
      push_neg at h
      have h1 : ¬k0 = k := fun hh => h.1 hh.symm
      simp [mapLookup, h1, ih h.2]

/-- Folding `mapInsert` over entries with pairwise-distinct keys preserves
lookups, falling back to the accumulator for missing keys. -/
theorem mapLookup_foldl_mapInsert (m : List (String × LogArg)) (k : String) :
    ∀ acc : List (String × LogArg), (m.map Prod.fst).Nodup →
      mapLookup (m.foldl (fun a p => mapInsert a p.1 p.2) acc) k =
        (match mapLookup m k with
          | some v => some v
          | none => mapLookup acc k) := by
  induction m with
  | nil => intro acc _; simp [mapLookup]
  | cons p rest ih =>
      intro acc hnd
      obtain ⟨k0, v0⟩ := p
      simp only [List.map_cons, List.nodup_cons] at hnd
      obtain ⟨hk0, hrest⟩ := hnd
      rw [List.foldl_cons, ih _ hrest]
      by_cases h : k0 = k
      · subst h
        rw [mapLookup_eq_none_of_not_mem rest k0 hk0]
        simp [mapLookup, mapLookup_mapInsert_self]
      · have : mapLookup (mapInsert acc k0 v0) k = mapLookup acc k :=
          mapLookup_mapInsert_of_ne acc k0 k v0 (fun hh => h hh.symm)
        cases hrk : mapLookup rest k <;> simp [mapLookup, h, hrk, this]

/-- Unfolding lemma for `flattenPairs`. -/
theorem flattenPairs_cons (p : LogArg × LogArg) (ps : List (LogArg × LogArg)) :
    flattenPairs (p :: ps) = p.1 :: p.2 :: flattenPairs ps := by
  simp [flattenPairs]

/-- `Log` over an even-length (pairwise) argument list folds the pairs into
the map, key stringified by `%s`. -/
theorem log_flattenPairs (ps : List (LogArg × LogArg)) :
    ∀ m : List (String × LogArg),
      ExpandedLogging.Log m (flattenPairs ps) =
        ps.foldl (fun acc p => mapInsert acc (sprintfPctS p.1) p.2) m := by
  induction ps with
  | nil => intro m; simp [flattenPairs, ExpandedLogging.Log]
  | cons p rest ih =>
      intro m
      obtain ⟨a, b⟩ := p
      rw [flattenPairs_cons]
      simp only [ExpandedLogging.Log, List.foldl_cons]
      exact ih _

/-- `Log` on pairs followed by one unpaired argument: the trailing argument
is inserted last, mapped to nil. -/
theorem log_flattenPairs_append_single (ps : List (LogArg × LogArg)) :
    ∀ (m : List (String × LogArg)) (k : LogArg),
      ExpandedLogging.Log m (flattenPairs ps ++ [k]) =
        mapInsert (ExpandedLogging.Log m (flattenPairs ps)) (sprintfPctS k) .argNil := by
  induction ps with
  | nil => intro m k; simp [flattenPairs, ExpandedLogging.Log]
  | cons p rest ih =>
      intro m k
      obtain ⟨a, b⟩ := p
      rw [flattenPairs_cons, List.cons_append, List.cons_append]
      simp only [ExpandedLogging.Log]
      rw [ih]

/-- Claim C10: `Log` consumes its arguments as key/value pairs with the
even-position arguments stringified as keys (first conjunct); a trailing
unpaired argument becomes a key mapped to nil even when earlier pairs used
the same key (second conjunct); a later `Log` with an equal key overwrites
the earlier value (third conjunct); and `GetAll` returns exactly the
accumulated mapping (fourth conjunct, stated as lookup equality of the
copy built by iterating the entries). -/
theorem expandedLogging_log_getAll_spec :
    (∀ (m : List (String × LogArg)) (ps : List (LogArg × LogArg)),
      ExpandedLogging.Log m (flattenPairs ps) =
        ps.foldl (fun acc p => mapInsert acc (sprintfPctS p.1) p.2) m) ∧
    (∀ (m : List (String × LogArg)) (ps : List (LogArg × LogArg)) (k : LogArg),
      mapLookup (ExpandedLogging.Log m (flattenPairs ps ++ [k])) (sprintfPctS k) =
        some .argNil) ∧
    (∀ (m : List (String × LogArg)) (k v1 v2 : LogArg),
      mapLookup (ExpandedLogging.Log (ExpandedLogging.Log m [k, v1]) [k, v2])
        (sprintfPctS k) = some v2) ∧
    (∀ (m : List (String × LogArg)) (k : String), (m.map Prod.fst).Nodup →
      mapLookup (ExpandedLogging.GetAll m) k = mapLookup m k) := by
  refine ⟨?_, ?_, ?_, ?_⟩
  · intro m ps
    exact log_flattenPairs ps m
  · intro m ps k
    rw [log_flattenPairs_append_single ps m k, mapLookup_mapInsert_self]
  · intro m k v1 v2
    simp [ExpandedLogging.Log, mapLookup_mapInsert_self]
  · intro m k hnd
    rw [ExpandedLogging.GetAll, mapLookup_foldl_mapInsert m k [] hnd]
    cases h : mapLookup m k <;> simp [mapLookup]

/-- Witness for `expandedLogging_log_getAll_spec`: on the one-entry map
`[("a", 1)]` (pairwise-distinct keys), the defensive copy looks up exactly
as the original. -/
theorem expandedLogging_log_getAll_spec_witness :
    (([("a", LogArg.argInt 1)].map Prod.fst).Nodup) ∧
    mapLookup (ExpandedLogging.GetAll [("a", LogArg.argInt 1)]) "a" =
      mapLookup [("a", LogArg.argInt 1)] "a" :=
  ⟨by simp,
   expandedLogging_log_getAll_spec.2.2.2 [("a", LogArg.argInt 1)] "a" (by simp)⟩
